import Mathlib

/-!
Shallow embedding of the retrieval-coordination layer in
`swarm/storage/netstore.go` (package `storage`): the `NetStore` coordinator,
its `fetchers` LRU cache of per-address `fetcher` sessions, and the
`fetcher` await/deliver protocol.

External collaborators are modelled as inputs rather than state:
the durable `ChunkStore`'s responses to `Get`/`Put` are passed to each call
(the store itself is out of scope per the spec), and the remote-fetch
trigger `f.fetch(rctx)` is a fire-and-forget signal with no effect on the
coordinator state, so it is elided.

`fetcher.Fetch` blocks between its entry bookkeeping and its deferred
cleanup; it is therefore embedded as three steps — `fetchEnter` (the
`atomic.AddInt32(+1)` and peer registration on entry), `fetchSelect`
(the `select` over `rctx.Done()` and `f.deliveredC`), and `fetchExit`
(the deferred peer removal and `atomic.AddInt32(-1)` with the
count-reached-zero `destroy` call) — applied in that order per call.
-/

/-- Chunk addresses: `storage.Address` is a byte slice; bytes as `Nat`. -/
abbrev Address := List Nat

/-- A chunk pairs an address with payload bytes (`Chunk`: `Address()`, `Data()`). -/
structure Chunk where
  addr : Address
  sdata : List Nat
deriving DecidableEq

/-- Errors that the external collaborators or a context can produce. -/
inductive GoErr where
  | notFound
  | ioError (code : Nat)
  | ctxCanceled
  | ctxDeadlineExceeded
deriving DecidableEq

/-- Go runtime panics relevant here: `close` of an already-closed channel. -/
inductive GoPanic where
  | closeOfClosedChannel
deriving DecidableEq

/-- Hex digit table of `encoding/hex` ("0123456789abcdef"). -/
def hexDigit (n : Nat) : Char :=
  if n < 10 then Char.ofNat (48 + n) else Char.ofNat (87 + n)

/-- `hex.EncodeToString`: two lowercase hex digits per byte, high nibble first. -/
def hexEncodeToString (a : Address) : String :=
  String.mk (a.foldr (fun b acc => hexDigit (b % 256 / 16) :: hexDigit (b % 16) :: acc) [])

/-- Dynamic type of a key stored in the `fetchers` cache (`map[interface{}]...`):
`getOrCreateFetcher` stores under a Go `string` (the hex encoding of the
address), while `Put` looks up with a raw `Address` value.  In Go, interface
values with distinct dynamic types are never equal, so the two constructors
are kept distinct. -/
inductive CacheKey where
  | str (s : String)
  | addr (a : Address)
deriving DecidableEq

/-- The string key under which `getOrCreateFetcher` registers and `destroy`
removes a session: `key := hex.EncodeToString(ref)`. -/
def fetcherKey (ref : Address) : CacheKey :=
  CacheKey.str (hexEncodeToString ref)

/-- The `fetcher` object (one per address with an outstanding retrieval).
`chunk` and `deliveredClosed` model the `chunk` field and whether the
`deliveredC` channel has been closed; `requestCnt` is the `int32` requester
counter; `peers` the `sync.Map` of requesting parties; `ctxCancelled` whether
the session's retrieval context (created by `context.WithCancel` in
`getOrCreateFetcher`) has been cancelled.  `destroyCalls` is ghost
instrumentation counting invocations of the `destroy` closure; it influences
no behaviour. -/
structure Fetcher where
  addr : Address
  chunk : Option Chunk
  deliveredClosed : Bool
  requestCnt : Int
  peers : List Nat
  ctxCancelled : Bool
  destroyCalls : Nat
deriving DecidableEq

/-- `newFetcher`: fresh session with an open `deliveredC` channel. -/
def newFetcher (addr : Address) : Fetcher :=
  { addr := addr
    chunk := none
    deliveredClosed := false
    requestCnt := 0
    peers := []
    ctxCancelled := false
    destroyCalls := 0 }

/-- The `NetStore` coordinator state.  Fetcher objects live in `heap` and are
identified by their allocation index (a model of Go pointer identity), so a
session evicted from the cache still exists and can still be referenced by
its waiters; `cache` is the `fetchers` LRU cache mapping keys to heap
indices; `cap` is the capacity passed to `lru.New`. -/
structure NetStore where
  cap : Nat
  cache : List (CacheKey × Nat)
  heap : List Fetcher
deriving DecidableEq

/-- `NewNetStore` with the store left external: empty cache, empty heap.
The capacity constant `defaultChunkRequestsCacheCapacity` is declared outside
`src/`, so the capacity is a parameter (the spec's one tunable, §6). -/
def mkNetStore (cap : Nat) : NetStore :=
  { cap := cap, cache := [], heap := [] }

/-- Modelled from the spec: lookup in the bounded Session Table cache
(hashicorp/golang-lru, not under `src/`).  §2: a "bounded-size mapping from
address to Fetch Session, evicting least-recently-used entries when full";
§4.3 operations `get`/`put`/`remove` with "no eviction callback".  The list
is recency-ordered, most recent first; `Get` marks recency on hit. -/
def lruGet (c : List (CacheKey × Nat)) (k : CacheKey) :
    Option Nat × List (CacheKey × Nat) :=
  match c.find? (fun p => p.1 == k) with
  | some p => (some p.2, p :: c.filter (fun q => !(q.1 == k)))
  | none => (none, c)

/-- Modelled from the spec: insertion into the bounded cache; adds the entry
as most recent and, when the bound is exceeded, evicts the least-recently-used
entry with no callback (§2, §4.3). -/
def lruAdd (cap : Nat) (c : List (CacheKey × Nat)) (k : CacheKey) (v : Nat) :
    List (CacheKey × Nat) :=
  let c1 := (k, v) :: c.filter (fun q => !(q.1 == k))
  if c1.length > cap then c1.dropLast else c1

/-- Modelled from the spec: removal from the bounded cache (§4.3 `remove`). -/
def lruRemove (c : List (CacheKey × Nat)) (k : CacheKey) :
    List (CacheKey × Nat) :=
  c.filter (fun q => !(q.1 == k))

/-- Pure membership lookup (no recency side effect), for stating properties. -/
def cacheFind (c : List (CacheKey × Nat)) (k : CacheKey) : Option Nat :=
  match c.find? (fun p => p.1 == k) with
  | some p => some p.2
  | none => none

/-- `NetStore.getOrCreateFetcher`: under the lock, look up the hex-string key
in the `fetchers` cache; on hit return the existing fetcher; on miss create a
fresh fetcher (with a fresh cancellable retrieval context) and add it under
the hex-string key.  Returns the fetcher's identity (heap index). -/
def NetStore.getOrCreateFetcher (n : NetStore) (ref : Address) :
    Nat × NetStore :=
  match lruGet n.cache (fetcherKey ref) with
  | (some fid, cache1) => (fid, { n with cache := cache1 })
  | (none, cache1) =>
      (n.heap.length,
        { n with
            cache := lruAdd n.cap cache1 (fetcherKey ref) n.heap.length
            heap := n.heap ++ [newFetcher ref] })

/-- Result triple of `NetStore.get`: chunk, fetch function (identified by the
fetcher it is bound to; `none` models a nil function), error. -/
structure GetRet where
  chunk : Option Chunk
  fetch : Option Nat
  err : Option GoErr
deriving DecidableEq

/-- `NetStore.get`: under the lock, consult the local store (its response for
this call is the `storeResp` input, the store being external); on success
return the chunk with nil fetch function and nil error; on ANY error from
`store.Get`, find-or-create a fetcher and return its `Fetch` with nil error. -/
def NetStore.get (n : NetStore) (storeResp : Except GoErr Chunk)
    (ref : Address) : GetRet × NetStore :=
  match storeResp with
  | Except.ok c => (⟨some c, none, none⟩, n)
  | Except.error _ =>
      (⟨none, some (n.getOrCreateFetcher ref).1, none⟩,
       (n.getOrCreateFetcher ref).2)

/-- Outcome of `NetStore.Get`: either an immediate return (fetch function was
nil) or blocking on the identified fetcher's `Fetch`. -/
inductive GetResult where
  | immediate (chunk : Option Chunk) (err : Option GoErr)
  | await (fid : Nat)
deriving DecidableEq

/-- `NetStore.Get`: call `get`; if the fetch function is nil return the chunk
and error immediately, otherwise the caller proceeds to block on that
fetcher's `Fetch`. -/
def NetStore.Get (n : NetStore) (storeResp : Except GoErr Chunk)
    (ref : Address) : GetResult × NetStore :=
  match n.get storeResp ref with
  | (⟨c, none, e⟩, n1) => (GetResult.immediate c e, n1)
  | (⟨_, some fid, _⟩, n1) => (GetResult.await fid, n1)

/-- `NetStore.Has`: `_, fetch, _ := n.get(ctx, ref); return fetch` — returns
the fetch function without calling it. -/
def NetStore.Has (n : NetStore) (storeResp : Except GoErr Chunk)
    (ref : Address) : Option Nat × NetStore :=
  ((n.get storeResp ref).1.fetch, (n.get storeResp ref).2)

/-- `fetcher.deliver`: sets `f.chunk = ch` then `close(f.deliveredC)`.
Closing an already-closed channel panics at runtime; the second component
reports that panic. -/
def Fetcher.deliver (f : Fetcher) (ch : Chunk) : Fetcher × Option GoPanic :=
  ({ f with chunk := some ch, deliveredClosed := true },
   if f.deliveredClosed then some GoPanic.closeOfClosedChannel else none)

/-- Result of `NetStore.Put`: the wait function returned to the caller
(`none` models nil; a tag models the closure's identity, returned unchanged
from `store.Put`), the error, and any runtime panic raised during the call. -/
structure PutRet where
  wait : Option Nat
  err : Option GoErr
  panicked : Option GoPanic
deriving DecidableEq

/-- `NetStore.Put`: under the lock, write to the local store (its response is
the `storePutResp` input: an error, or `none` for "already present" (nil wait
function), or `some w` for a new write pending durability).  On error, return
it with nil wait.  If the chunk was already present, return `(nil, nil)`.
Otherwise look up the `fetchers` cache — with the RAW address value
`ch.Address()`, exactly as the source does — and, if a fetcher is found,
deliver the chunk to it; finally return the wait function. -/
def NetStore.Put (n : NetStore) (storePutResp : Except GoErr (Option Nat))
    (ch : Chunk) : PutRet × NetStore :=
  match storePutResp with
  | Except.error e => (⟨none, some e, none⟩, n)
  | Except.ok none => (⟨none, none, none⟩, n)
  | Except.ok (some w) =>
      match lruGet n.cache (CacheKey.addr ch.addr) with
      | (some fid, cache1) =>
          match n.heap[fid]? with
          | some f =>
              (⟨some w, none, (f.deliver ch).2⟩,
               { n with cache := cache1, heap := n.heap.set fid (f.deliver ch).1 })
          | none => (⟨some w, none, none⟩, { n with cache := cache1 })
      | (none, cache1) => (⟨some w, none, none⟩, { n with cache := cache1 })

/-- The caller-supplied request context as `fetcher.Fetch` consumes it:
`rctx.Err()` (set exactly when the context is done) and `rctx.Value("peer")`. -/
structure GoContext where
  doneErr : Option GoErr
  peerVal : Option Nat
deriving DecidableEq

/-- `sync.Map.Store(peer, true)` on the peers set. -/
def peersStore (ps : List Nat) (p : Nat) : List Nat :=
  if ps.contains p then ps else p :: ps

/-- `sync.Map.Delete(peer)` on the peers set. -/
def peersDelete (ps : List Nat) (p : Nat) : List Nat :=
  ps.filter (fun q => !(q == p))

/-- Apply an update to the fetcher at heap index `fid` (no-op if absent). -/
def NetStore.updFetcher (n : NetStore) (fid : Nat) (g : Fetcher → Fetcher) :
    NetStore :=
  match n.heap[fid]? with
  | some f => { n with heap := n.heap.set fid (g f) }
  | none => n

/-- Entry bookkeeping of `fetcher.Fetch`: `atomic.AddInt32(&f.requestCnt, 1)`,
then register the peer from the context (if any) in the peers set. -/
def fetchEnter (n : NetStore) (fid : Nat) (rctx : GoContext) : NetStore :=
  n.updFetcher fid (fun f =>
    let f1 := { f with requestCnt := f.requestCnt + 1 }
    match rctx.peerVal with
    | some p => { f1 with peers := peersStore f1.peers p }
    | none => f1)

/-- The `select` in `fetcher.Fetch` over `rctx.Done()` and `f.deliveredC`:
`none` when neither is ready (the call is still blocked); when both are ready
Go picks a case pseudo-randomly, modelled by the `pickCtx` oracle. -/
def fetchSelect (f : Fetcher) (rctx : GoContext) (pickCtx : Bool) :
    Option (Option Chunk × Option GoErr) :=
  match rctx.doneErr, f.deliveredClosed with
  | some e, false => some (none, some e)
  | none, true => some (f.chunk, none)
  | some e, true =>
      if pickCtx then some (none, some e) else some (f.chunk, none)
  | none, false => none

/-- Deferred cleanup of `fetcher.Fetch`, run on every exit path (defers run
LIFO): first `f.peers.Delete(peer)`, then `atomic.AddInt32(&f.requestCnt, -1)`
and, exactly when the returned value is zero, the `destroy` closure — which
removes the session from the cache under its hex-string key and cancels its
retrieval context. -/
def fetchExit (n : NetStore) (fid : Nat) (rctx : GoContext) : NetStore :=
  match n.heap[fid]? with
  | none => n
  | some f =>
      let f1 : Fetcher :=
        match rctx.peerVal with
        | some p => { f with peers := peersDelete f.peers p }
        | none => f
      if f1.requestCnt - 1 = 0 then
        { n with
            heap := n.heap.set fid
              { f1 with
                  requestCnt := f1.requestCnt - 1,
                  ctxCancelled := true,
                  destroyCalls := f1.destroyCalls + 1 },
            cache := lruRemove n.cache (fetcherKey f.addr) }
      else
        { n with heap := n.heap.set fid { f1 with requestCnt := f1.requestCnt - 1 } }

/-- Events of one `fetcher.Fetch` call's bookkeeping on a given fetcher:
the entry increment and the exit decrement. -/
inductive FEv where
  | enter (rctx : GoContext)
  | leave (rctx : GoContext)
deriving DecidableEq

/-- Run a sequence of enter/exit events against the fetcher at `fid`. -/
def runFetchEvs (fid : Nat) : NetStore → List FEv → NetStore
  | n, [] => n
  | n, FEv.enter r :: rest => runFetchEvs fid (fetchEnter n fid r) rest
  | n, FEv.leave r :: rest => runFetchEvs fid (fetchExit n fid r) rest

/-- Well-formed balanced event sequences starting from count `c`: every exit
matches a prior entry, and the count returns to zero only at the very end
(one in-flight period: all waiters attach before the last one detaches). -/
def okRunb (c : Int) : List FEv → Bool
  | [] => decide (c = 0)
  | FEv.enter _ :: rest => okRunb (c + 1) rest
  | FEv.leave _ :: rest =>
      if c ≤ 0 then false
      else if c = 1 then rest.isEmpty
      else okRunb (c - 1) rest

/-! Concrete scenarios used by individual claims (reachable states built by
running the model operations). -/

/-- A request context that is alive and carries no peer identity. -/
def liveCtx : GoContext := ⟨none, none⟩

/-- C1 scenario: a reader misses the store for address `[1]` (creating a
session) and blocks on it. -/
def c1N1 : NetStore := ((mkNetStore 10).get (Except.error GoErr.notFound) [1]).2

/-- C1 scenario: the blocked reader has entered the session's `Fetch`. -/
def c1N2 : NetStore := fetchEnter c1N1 0 liveCtx

/-- C1 scenario: `Put` of the chunk for `[1]`, store reporting a new write. -/
def c1Put : PutRet × NetStore := c1N2.Put (Except.ok (some 7)) ⟨[1], [42]⟩

/-- C5 counterexample scenario: the store fails the lookup for `[2]` with an
I/O error (not not-found). -/
def c5R : GetRet × NetStore :=
  (mkNetStore 10).get (Except.error (GoErr.ioError 5)) [2]

/-- C7 counterexample scenario: a session for `[3]` exists with a blocked
reader. -/
def c7N2 : NetStore :=
  fetchEnter ((mkNetStore 10).get (Except.error GoErr.notFound) [3]).2 0 liveCtx

/-- C7 counterexample scenario: `Put` of the chunk for `[3]`, store reporting
it was already present (nil wait function). -/
def c7P : PutRet × NetStore := c7N2.Put (Except.ok none) ⟨[3], [9]⟩

/-- C4 witness scenario: a session for `[5]` is registered in the table. -/
def c4W : NetStore := ((mkNetStore 10).get (Except.error GoErr.notFound) [5]).2

/-- C2 witness scenario: a session for `[6]` is registered in the table. -/
def c2W : NetStore := ((mkNetStore 10).get (Except.error GoErr.notFound) [6]).2

/-- C2 witness scenario: one waiter has entered the session's `Fetch`. -/
def c2E : NetStore := fetchEnter c2W 0 liveCtx

/-- C10 scenario: capacity-2 table; sessions for `[1]` and `[2]` created,
each with one blocked waiter. -/
def e4 : NetStore :=
  fetchEnter
    ((fetchEnter ((mkNetStore 2).get (Except.error GoErr.notFound) [1]).2
        0 liveCtx).get (Except.error GoErr.notFound) [2]).2
    1 liveCtx

/-- C10 scenario: a miss for a third address `[3]` fills the table past its
bound, evicting the least-recently-used session (the one for `[1]`). -/
def e5 : NetStore := (e4.get (Except.error GoErr.notFound) [3]).2

/-- C10 scenario: a later miss for `[1]` after the eviction. -/
def e6 : GetRet × NetStore := e5.get (Except.error GoErr.notFound) [1]

/-! Helper lemmas about list lookup and the cache. -/

theorem getElem?_some_lt {α : Type} {l : List α} {i : Nat} {a : α}
    (h : l[i]? = some a) : i < l.length :=
  (List.getElem?_eq_some.mp h).1

theorem cacheFind_lruRemove (c : List (CacheKey × Nat)) (k : CacheKey) :
    cacheFind (lruRemove c k) k = none := by
  induction c with
  | nil => rfl
  | cons p rest ih =>
      by_cases hp : p.1 == k
      · simpa [lruRemove, List.filter_cons, hp] using ih
      · simp only [lruRemove, List.filter_cons, hp] at ih ⊢
        simp only [Bool.not_false, if_pos]
        simpa [cacheFind, List.find?, hp] using ih

/-- Claim C6: for every address already present in the Durable Store, `Get`
returns the locally stored chunk immediately with nil error, creating no
Fetch Session, registering no waiter, and not blocking (the state is
unchanged and the result is immediate, not an await). -/
theorem claim6_local_hit_immediate :
    ∀ (n : NetStore) (c : Chunk) (ref : Address),
      n.get (Except.ok c) ref = (⟨some c, none, none⟩, n) ∧
      n.Get (Except.ok c) ref = (GetResult.immediate (some c) none, n) := by
  intro n c ref
  exact ⟨rfl, rfl⟩

/-- Claim C5 counterexample: a non-not-found lookup error from the Durable
Store (an I/O error) is NOT surfaced by `get`: the returned error is nil and
a fetcher is created instead. -/
theorem claim5_counterexample_error_swallowed :
    c5R.1.err ≠ some (GoErr.ioError 5) ∧ c5R.1.err = none ∧
    c5R.1.fetch = some 0 ∧ c5R.2.heap.length = 1 := by
  decide

/-- Claim C5 (amended): lookup errors from the Durable Store during read are
not surfaced; any error from `store.Get` — not only not-found — is treated as
a miss, `get` returns nil error together with a fetch function, and the read
proceeds to find-or-create a fetcher and block on it (no retry of the store
lookup at this layer). -/
theorem claim5_amended_any_error_is_miss :
    ∀ (n : NetStore) (e : GoErr) (ref : Address),
      n.get (Except.error e) ref
        = (⟨none, some (n.getOrCreateFetcher ref).1, none⟩,
           (n.getOrCreateFetcher ref).2) ∧
      n.Get (Except.error e) ref
        = (GetResult.await (n.getOrCreateFetcher ref).1,
           (n.getOrCreateFetcher ref).2) := by
  intro n e ref
  exact ⟨rfl, rfl⟩

/-- Claim C7 counterexample: with a Fetch Session registered for address
`[3]` (under its hex key) and a reader blocked on it, a `Put` whose store
write reports "already present" returns `(nil, nil)` and does NOT notify the
session: the state is unchanged and the session remains undelivered. -/
theorem claim7_counterexample_no_notify_on_present :
    cacheFind c7N2.cache (fetcherKey [3]) = some 0 ∧
    c7P.1 = ⟨none, none, none⟩ ∧ c7P.2 = c7N2 ∧
    (c7P.2.heap[0]?).map Fetcher.deliveredClosed = some false := by
  decide

/-- Claim C7 (amended): for every chunk whose local-store write reports it was
already present (nil durability wait, nil error), `Put` returns `(nil, nil)`
and performs no session work; an existing Fetch Session for that address is
NOT notified — the early return happens before the fetcher lookup. -/
theorem claim7_amended_present_returns_nil_nil :
    ∀ (n : NetStore) (ch : Chunk),
      n.Put (Except.ok none) ch = (⟨none, none, none⟩, n) := by
  intro n ch
  rfl

/-- Claim C8: `deliver` on a session whose delivery channel is already closed
panics (close of closed channel) rather than being a silent no-op; a first
`deliver` closes the channel without panicking. -/
theorem claim8_second_deliver_panics :
    ∀ (a : Address) (f : Fetcher) (ch ch2 : Chunk),
      ((f.deliver ch).1.deliver ch2).2 = some GoPanic.closeOfClosedChannel ∧
      (f.deliver ch).1.deliveredClosed = true ∧
      ((newFetcher a).deliver ch).2 = none := by
  intro a f ch ch2
  exact ⟨rfl, rfl, rfl⟩

/-- Claim C9: `Has` returns nil exactly when the store lookup succeeds, and
otherwise returns — without blocking — the identical fetcher `Fetch` that
`Get` would block on (same fetcher identity, same resulting state). -/
theorem claim9_has_returns_get_wait :
    ∀ (n : NetStore) (ref : Address) (c : Chunk) (e : GoErr),
      n.Has (Except.ok c) ref = (none, n) ∧
      n.Has (Except.error e) ref
        = (some (n.getOrCreateFetcher ref).1, (n.getOrCreateFetcher ref).2) ∧
      n.Get (Except.error e) ref
        = (GetResult.await (n.getOrCreateFetcher ref).1,
           (n.getOrCreateFetcher ref).2) := by
  intro n ref c e
  exact ⟨rfl, rfl, rfl⟩

/-- Claim C1: with a Fetch Session for `[1]` registered under its hex-string
key and a reader blocked on it, a `Put` whose store write reports a new write
(non-nil wait) does NOT deliver the chunk to that session: `Put` looks the
table up with the raw `Address` value, which never matches the stored
hex-string key, so the lookup misses, the state is unchanged, the session
stays undelivered, and the blocked reader's select remains blocked. -/
theorem claim1_put_never_delivers :
    cacheFind c1N2.cache (fetcherKey [1]) = some 0 ∧
    (c1N2.heap[0]?).map Fetcher.requestCnt = some 1 ∧
    c1Put.1 = ⟨some 7, none, none⟩ ∧
    lruGet c1N2.cache (CacheKey.addr [1]) = (none, c1N2.cache) ∧
    c1Put.2 = c1N2 ∧
    (c1Put.2.heap[0]?).map Fetcher.deliveredClosed = some false ∧
    (c1Put.2.heap[0]?).map (fun f => fetchSelect f liveCtx true) = some none := by
  decide

/-- Claim C3: a `Fetch` call has exactly two terminal outcomes — context
ended before delivery gives `(nil, the context's error)`, delivery fired
gives `(the delivered chunk, nil)` — and every waiter that observes delivery
receives the identical delivered chunk value. -/
theorem claim3_fetch_two_outcomes :
    ∀ (f : Fetcher) (rctx : GoContext) (pickCtx : Bool),
      (∀ r, fetchSelect f rctx pickCtx = some r →
          (∃ e, rctx.doneErr = some e ∧ r = (none, some e)) ∨
          (f.deliveredClosed = true ∧ r = (f.chunk, none))) ∧
      (∀ e, rctx.doneErr = some e → f.deliveredClosed = false →
          fetchSelect f rctx pickCtx = some (none, some e)) ∧
      (∀ ch, rctx.doneErr = none →
          fetchSelect (f.deliver ch).1 rctx pickCtx = some (some ch, none)) ∧
      (∀ (rctx2 : GoContext) (pick2 : Bool) (ch : Chunk),
          rctx.doneErr = none → rctx2.doneErr = none →
          fetchSelect (f.deliver ch).1 rctx pickCtx
            = fetchSelect (f.deliver ch).1 rctx2 pick2) := by
  intro f rctx pickCtx
  refine ⟨?_, ?_, ?_, ?_⟩
  · intro r hr
    cases hd : rctx.doneErr with
    | none =>
        cases hc : f.deliveredClosed with
        | false => simp [fetchSelect, hd, hc] at hr
        | true =>
            right
            simp [fetchSelect, hd, hc] at hr
            exact ⟨rfl, hr.symm⟩
    | some e =>
        cases hc : f.deliveredClosed with
        | false =>
            left
            simp [fetchSelect, hd, hc] at hr
            exact ⟨e, rfl, hr.symm⟩
        | true =>
            cases hp : pickCtx with
            | true =>
                left
                simp [fetchSelect, hd, hc, hp] at hr
                exact ⟨e, rfl, hr.symm⟩
            | false =>
                right
                simp [fetchSelect, hd, hc, hp] at hr
                exact ⟨rfl, hr.symm⟩
  · intro e hd hc
    simp [fetchSelect, hd, hc]
  · intro ch hd
    simp [fetchSelect, Fetcher.deliver, hd]
  · intro rctx2 pick2 ch hd hd2
    simp [fetchSelect, Fetcher.deliver, hd, hd2]

/-- Claim C3 witness: concrete instances — a cancelled context returns its
error with no chunk; a delivered session returns the delivered chunk to a
live waiter; the dichotomy holds at a concrete result; two distinct waiters
observing the same delivered session get identical results. -/
theorem claim3_fetch_two_outcomes_witness :
    fetchSelect (newFetcher [4]) ⟨some GoErr.ctxCanceled, none⟩ true
      = some (none, some GoErr.ctxCanceled) ∧
    fetchSelect ((newFetcher [4]).deliver ⟨[4], [8]⟩).1 liveCtx true
      = some (some ⟨[4], [8]⟩, none) ∧
    ((∃ e, (⟨some GoErr.ctxCanceled, none⟩ : GoContext).doneErr = some e ∧
        ((none : Option Chunk), (some GoErr.ctxCanceled : Option GoErr))
          = (none, some e)) ∨
      ((newFetcher [4]).deliveredClosed = true ∧
        ((none : Option Chunk), (some GoErr.ctxCanceled : Option GoErr))
          = ((newFetcher [4]).chunk, none))) ∧
    fetchSelect ((newFetcher [4]).deliver ⟨[4], [8]⟩).1 ⟨none, some 1⟩ true
      = fetchSelect ((newFetcher [4]).deliver ⟨[4], [8]⟩).1 ⟨none, some 2⟩ false := by
  refine ⟨?_, ?_, ?_, ?_⟩
  · exact (claim3_fetch_two_outcomes (newFetcher [4])
      ⟨some GoErr.ctxCanceled, none⟩ true).2.1 GoErr.ctxCanceled rfl rfl
  · exact (claim3_fetch_two_outcomes (newFetcher [4]) liveCtx true).2.2.1
      ⟨[4], [8]⟩ rfl
  · exact (claim3_fetch_two_outcomes (newFetcher [4])
      ⟨some GoErr.ctxCanceled, none⟩ true).1 (none, some GoErr.ctxCanceled)
      (by decide)
  · exact (claim3_fetch_two_outcomes (newFetcher [4]) ⟨none, some 1⟩ true).2.2.2
      ⟨none, some 2⟩ false ⟨[4], [8]⟩ rfl rfl

/-- Claim C4: while a session for an address is present in the table, the
locked find-or-create step returns that session, creates no second one (the
fetcher heap is unchanged), and the session stays present. -/
theorem claim4_find_or_create_idempotent :
    ∀ (n : NetStore) (a : Address) (fid : Nat),
      cacheFind n.cache (fetcherKey a) = some fid →
      (n.getOrCreateFetcher a).1 = fid ∧
      (n.getOrCreateFetcher a).2.heap = n.heap ∧
      cacheFind (n.getOrCreateFetcher a).2.cache (fetcherKey a) = some fid := by
  intro n a fid h
  unfold cacheFind at h
  cases hf : n.cache.find? (fun p => p.1 == fetcherKey a) with
  | none => rw [hf] at h; exact absurd h (by simp)
  | some p =>
      rw [hf] at h
      have hp2 : p.2 = fid := by simpa using h
      have hpk : (p.1 == fetcherKey a) = true := by
        simpa using List.find?_some hf
      unfold NetStore.getOrCreateFetcher lruGet
      rw [hf]
      refine ⟨hp2, rfl, ?_⟩
      simp [cacheFind, List.find?, hpk, hp2]

/-- Claim C4 witness: with the session for `[5]` registered at index 0,
find-or-create returns index 0, leaves the heap unchanged, and keeps the
session in the table. -/
theorem claim4_find_or_create_idempotent_witness :
    (c4W.getOrCreateFetcher [5]).1 = 0 ∧
    (c4W.getOrCreateFetcher [5]).2.heap = c4W.heap ∧
    cacheFind (c4W.getOrCreateFetcher [5]).2.cache (fetcherKey [5]) = some 0 :=
  claim4_find_or_create_idempotent c4W [5] 0 (by decide)

/-! Lemmas describing one `Fetch` call's entry and exit transitions. -/

theorem fetchEnter_heap (n : NetStore) (fid : Nat) (rctx : GoContext)
    (f : Fetcher) (h : n.heap[fid]? = some f) :
    ∃ f', (fetchEnter n fid rctx).heap[fid]? = some f' ∧
      f'.requestCnt = f.requestCnt + 1 ∧ f'.destroyCalls = f.destroyCalls ∧
      f'.ctxCancelled = f.ctxCancelled ∧ f'.addr = f.addr ∧
      f'.deliveredClosed = f.deliveredClosed ∧ f'.chunk = f.chunk := by
  have hl : fid < n.heap.length := getElem?_some_lt h
  cases hr : rctx.peerVal with
  | none =>
      refine ⟨{ f with requestCnt := f.requestCnt + 1 }, ?_,
        rfl, rfl, rfl, rfl, rfl, rfl⟩
      simp [fetchEnter, NetStore.updFetcher, h, hr,
        List.getElem?_set_eq_of_lt _ hl]
  | some p =>
      refine ⟨{ f with requestCnt := f.requestCnt + 1, peers := peersStore f.peers p },
              ?_, rfl, rfl, rfl, rfl, rfl, rfl⟩
      simp [fetchEnter, NetStore.updFetcher, h, hr,
        List.getElem?_set_eq_of_lt _ hl]

theorem fetchExit_destroy (n : NetStore) (fid : Nat) (rctx : GoContext)
    (f : Fetcher) (h : n.heap[fid]? = some f) (h1 : f.requestCnt - 1 = 0) :
    ∃ f', (fetchExit n fid rctx).heap[fid]? = some f' ∧
      f'.requestCnt = 0 ∧ f'.ctxCancelled = true ∧
      f'.destroyCalls = f.destroyCalls + 1 ∧ f'.addr = f.addr ∧
      (fetchExit n fid rctx).cache = lruRemove n.cache (fetcherKey f.addr) := by
  have hl : fid < n.heap.length := getElem?_some_lt h
  cases hr : rctx.peerVal with
  | none =>
      refine ⟨{ f with requestCnt := 0, ctxCancelled := true, destroyCalls := f.destroyCalls + 1 },
              ?_, rfl, rfl, rfl, rfl, ?_⟩
      · simp [fetchExit, h, hr, h1, List.getElem?_set_eq_of_lt _ hl]
      · simp [fetchExit, h, hr, h1]
  | some p =>
      refine ⟨{ f with peers := peersDelete f.peers p, requestCnt := 0, ctxCancelled := true, destroyCalls := f.destroyCalls + 1 },
              ?_, rfl, rfl, rfl, rfl, ?_⟩
      · simp [fetchExit, h, hr, h1, List.getElem?_set_eq_of_lt _ hl]
      · simp [fetchExit, h, hr, h1]

theorem fetchExit_live (n : NetStore) (fid : Nat) (rctx : GoContext)
    (f : Fetcher) (h : n.heap[fid]? = some f) (h1 : f.requestCnt - 1 ≠ 0) :
    ∃ f', (fetchExit n fid rctx).heap[fid]? = some f' ∧
      f'.requestCnt = f.requestCnt - 1 ∧ f'.ctxCancelled = f.ctxCancelled ∧
      f'.destroyCalls = f.destroyCalls ∧ f'.addr = f.addr ∧
      (fetchExit n fid rctx).cache = n.cache := by
  have hl : fid < n.heap.length := getElem?_some_lt h
  cases hr : rctx.peerVal with
  | none =>
      refine ⟨{ f with requestCnt := f.requestCnt - 1 }, ?_,
        rfl, rfl, rfl, rfl, ?_⟩
      · simp [fetchExit, h, hr, h1, List.getElem?_set_eq_of_lt _ hl]
      · simp [fetchExit, h, hr, h1]
  | some p =>
      refine ⟨{ f with peers := peersDelete f.peers p, requestCnt := f.requestCnt - 1 },
              ?_, rfl, rfl, rfl, rfl, ?_⟩
      · simp [fetchExit, h, hr, h1, List.getElem?_set_eq_of_lt _ hl]
      · simp [fetchExit, h, hr, h1]

/-- Along any well-formed balanced run on a session whose count is positive,
the `destroy` closure runs exactly once — at the step whose decrement reaches
zero — cancelling the retrieval context and removing the session's key from
the table. -/
theorem runDestroyOnce_aux :
    ∀ (evs : List FEv) (c : Int) (n : NetStore) (fid : Nat) (f : Fetcher),
      n.heap[fid]? = some f → f.requestCnt = c → f.destroyCalls = 0 →
      0 < c → okRunb c evs = true →
      ∃ f', (runFetchEvs fid n evs).heap[fid]? = some f' ∧
        f'.destroyCalls = 1 ∧ f'.ctxCancelled = true ∧ f'.requestCnt = 0 ∧
        f'.addr = f.addr ∧
        cacheFind (runFetchEvs fid n evs).cache (fetcherKey f.addr) = none := by
  intro evs
  induction evs with
  | nil =>
      intro c n fid f h hc hd hpos hok
      simp [okRunb] at hok
      omega
  | cons ev rest ih =>
      intro c n fid f h hc hd hpos hok
      cases ev with
      | enter r =>
          obtain ⟨f1, h1, hcnt, hdc, _, haddr, _, _⟩ := fetchEnter_heap n fid r f h
          have hok1 : okRunb (c + 1) rest = true := by
            simpa [okRunb] using hok
          obtain ⟨f2, h2, hd2, hcc2, hrc2, haddr2, hcf⟩ :=
            ih (c + 1) (fetchEnter n fid r) fid f1 h1
              (by rw [hcnt, hc]) (by rw [hdc, hd]) (by omega) hok1
          refine ⟨f2, ?_, hd2, hcc2, hrc2, haddr2.trans haddr, ?_⟩
          · simpa [runFetchEvs] using h2
          · rw [← haddr]
            simpa [runFetchEvs] using hcf
      | leave r =>
          simp only [okRunb] at hok
          rw [if_neg (by omega : ¬ c ≤ 0)] at hok
          by_cases hc1 : c = 1
          · rw [if_pos hc1] at hok
            have hrest : rest = [] := by
              cases rest with
              | nil => rfl
              | cons x xs => simp [List.isEmpty] at hok
            subst hrest
            have h1 : f.requestCnt - 1 = 0 := by omega
            obtain ⟨f', hh, hrc, hcc, hdc, haddr, hcache⟩ :=
              fetchExit_destroy n fid r f h h1
            refine ⟨f', ?_, ?_, hcc, hrc, haddr, ?_⟩
            · simpa [runFetchEvs] using hh
            · rw [hdc, hd]
            · show cacheFind (runFetchEvs fid (fetchExit n fid r) []).cache
                (fetcherKey f.addr) = none
              simp only [runFetchEvs, hcache]
              exact cacheFind_lruRemove n.cache (fetcherKey f.addr)
          · rw [if_neg hc1] at hok
            have h1 : f.requestCnt - 1 ≠ 0 := by omega
            obtain ⟨f1, hh1, hrc1, hcc1, hdc1, haddr1, hcache1⟩ :=
              fetchExit_live n fid r f h h1
            obtain ⟨f2, h2, hd2, hcc2, hrc2, haddr2, hcf⟩ :=
              ih (c - 1) (fetchExit n fid r) fid f1 hh1
                (by rw [hrc1, hc]) (by rw [hdc1, hd]) (by omega) hok
            refine ⟨f2, ?_, hd2, hcc2, hrc2, haddr2.trans haddr1, ?_⟩
            · simpa [runFetchEvs] using h2
            · rw [← haddr1]
              simpa [runFetchEvs] using hcf

/-- Claim C2: every `Fetch` call increments the active requester count on
entry and decrements it on every exit path; the teardown (`destroy`) runs
exactly when the decrement reaches zero — removing the session from the table
under its key and cancelling its retrieval context — and along any balanced
one-in-flight-period run it runs exactly once; a subsequent table miss for
the address then constructs a brand-new session, never reusing the torn-down
one (the new identity differs from every existing one). -/
theorem claim2_refcount_teardown_once :
    (∀ (n : NetStore) (fid : Nat) (rctx : GoContext) (f : Fetcher),
        n.heap[fid]? = some f →
        ∃ f', (fetchEnter n fid rctx).heap[fid]? = some f' ∧
          f'.requestCnt = f.requestCnt + 1) ∧
    (∀ (n : NetStore) (fid : Nat) (rctx : GoContext) (f : Fetcher),
        n.heap[fid]? = some f →
        ∃ f', (fetchExit n fid rctx).heap[fid]? = some f' ∧
          f'.requestCnt = f.requestCnt - 1 ∧
          (f.requestCnt - 1 = 0 →
            f'.destroyCalls = f.destroyCalls + 1 ∧ f'.ctxCancelled = true ∧
            cacheFind (fetchExit n fid rctx).cache (fetcherKey f.addr) = none) ∧
          (f.requestCnt - 1 ≠ 0 →
            f'.destroyCalls = f.destroyCalls ∧
            f'.ctxCancelled = f.ctxCancelled ∧
            (fetchExit n fid rctx).cache = n.cache)) ∧
    (∀ (evs : List FEv) (n : NetStore) (fid : Nat) (f : Fetcher),
        n.heap[fid]? = some f → f.requestCnt = 0 → f.destroyCalls = 0 →
        okRunb 0 evs = true → evs ≠ [] →
        ∃ f', (runFetchEvs fid n evs).heap[fid]? = some f' ∧
          f'.destroyCalls = 1 ∧ f'.ctxCancelled = true ∧ f'.requestCnt = 0 ∧
          cacheFind (runFetchEvs fid n evs).cache (fetcherKey f.addr) = none) ∧
    (∀ (n : NetStore) (a : Address),
        cacheFind n.cache (fetcherKey a) = none →
        (n.getOrCreateFetcher a).1 = n.heap.length ∧
        (∀ fid, fid < n.heap.length → (n.getOrCreateFetcher a).1 ≠ fid) ∧
        (n.getOrCreateFetcher a).2.heap[(n.getOrCreateFetcher a).1]?
          = some (newFetcher a)) := by
  refine ⟨?_, ?_, ?_, ?_⟩
  · intro n fid rctx f h
    obtain ⟨f', h', hcnt, _, _, _, _, _⟩ := fetchEnter_heap n fid rctx f h
    exact ⟨f', h', hcnt⟩
  · intro n fid rctx f h
    by_cases hz : f.requestCnt - 1 = 0
    · obtain ⟨f', hh, hrc, hcc, hdc, _, hcache⟩ :=
        fetchExit_destroy n fid rctx f h hz
      refine ⟨f', hh, by rw [hz]; exact hrc, fun _ => ⟨hdc, hcc, ?_⟩,
        fun hne => absurd hz hne⟩
      rw [hcache]
      exact cacheFind_lruRemove n.cache (fetcherKey f.addr)
    · obtain ⟨f1, hh1, hrc1, hcc1, hdc1, _, hcache1⟩ :=
        fetchExit_live n fid rctx f h hz
      exact ⟨f1, hh1, hrc1, fun hzz => absurd hzz hz,
        fun _ => ⟨hdc1, hcc1, hcache1⟩⟩
  · intro evs n fid f h hc hd hok hne
    cases evs with
    | nil => exact absurd rfl hne
    | cons ev rest =>
        cases ev with
        | leave r => simp [okRunb] at hok
        | enter r =>
            have hok1 : okRunb 1 rest = true := by
              have : (0 : Int) + 1 = 1 := by omega
              simpa [okRunb, this] using hok
            obtain ⟨f1, h1, hcnt, hdc, _, haddr, _, _⟩ :=
              fetchEnter_heap n fid r f h
            obtain ⟨f2, h2, hd2, hcc2, hrc2, _, hcf⟩ :=
              runDestroyOnce_aux rest 1 (fetchEnter n fid r) fid f1 h1
                (by omega) (by rw [hdc, hd]) (by omega) hok1
            refine ⟨f2, by simpa [runFetchEvs] using h2, hd2, hcc2, hrc2, ?_⟩
            rw [← haddr]
            simpa [runFetchEvs] using hcf
  · intro n a h
    unfold cacheFind at h
    cases hf : n.cache.find? (fun p => p.1 == fetcherKey a) with
    | some p => rw [hf] at h; simp at h
    | none =>
        unfold NetStore.getOrCreateFetcher lruGet
        rw [hf]
        refine ⟨rfl, ?_, ?_⟩
        · intro fid hlt
          simp only []
          omega
        · simp

/-- Claim C2 witness: concrete instances of all four parts — entry increments
the registered session's count; exit on the single waiter decrements to zero
and tears down; a balanced enter/exit run tears down exactly once and empties
the table entry; a fresh lookup after that constructs a brand-new session. -/
theorem claim2_refcount_teardown_once_witness :
    (∃ f', (fetchEnter c2W 0 liveCtx).heap[0]? = some f' ∧
      f'.requestCnt = (newFetcher [6]).requestCnt + 1) ∧
    (∃ f', (fetchExit c2E 0 liveCtx).heap[0]? = some f' ∧
      f'.requestCnt = ({ newFetcher [6] with requestCnt := 1 } : Fetcher).requestCnt - 1 ∧
      (({ newFetcher [6] with requestCnt := 1 } : Fetcher).requestCnt - 1 = 0 →
        f'.destroyCalls
            = ({ newFetcher [6] with requestCnt := 1 } : Fetcher).destroyCalls + 1 ∧
          f'.ctxCancelled = true ∧
          cacheFind (fetchExit c2E 0 liveCtx).cache
            (fetcherKey ({ newFetcher [6] with requestCnt := 1 } : Fetcher).addr)
            = none) ∧
      (({ newFetcher [6] with requestCnt := 1 } : Fetcher).requestCnt - 1 ≠ 0 →
        f'.destroyCalls
            = ({ newFetcher [6] with requestCnt := 1 } : Fetcher).destroyCalls ∧
          f'.ctxCancelled
            = ({ newFetcher [6] with requestCnt := 1 } : Fetcher).ctxCancelled ∧
          (fetchExit c2E 0 liveCtx).cache = c2E.cache)) ∧
    (∃ f', (runFetchEvs 0 c2W [FEv.enter liveCtx, FEv.leave liveCtx]).heap[0]?
        = some f' ∧
      f'.destroyCalls = 1 ∧ f'.ctxCancelled = true ∧ f'.requestCnt = 0 ∧
      cacheFind (runFetchEvs 0 c2W [FEv.enter liveCtx, FEv.leave liveCtx]).cache
        (fetcherKey (newFetcher [6]).addr) = none) ∧
    (((mkNetStore 10).getOrCreateFetcher [6]).1 = (mkNetStore 10).heap.length ∧
      (∀ fid, fid < (mkNetStore 10).heap.length →
        ((mkNetStore 10).getOrCreateFetcher [6]).1 ≠ fid) ∧
      ((mkNetStore 10).getOrCreateFetcher [6]).2.heap[
          ((mkNetStore 10).getOrCreateFetcher [6]).1]? = some (newFetcher [6])) := by
  refine ⟨?_, ?_, ?_, ?_⟩
  · exact claim2_refcount_teardown_once.1 c2W 0 liveCtx (newFetcher [6])
      (by decide)
  · exact claim2_refcount_teardown_once.2.1 c2E 0 liveCtx
      { newFetcher [6] with requestCnt := 1 } (by decide)
  · exact claim2_refcount_teardown_once.2.2.1
      [FEv.enter liveCtx, FEv.leave liveCtx] c2W 0 (newFetcher [6])
      (by decide) rfl rfl (by decide) (by decide)
  · exact claim2_refcount_teardown_once.2.2.2 (mkNetStore 10) [6] (by decide)

/-- Claim C10: a reachable trace on a capacity-2 table in which registering a
third session evicts the least-recently-used session for `[1]` without any
teardown — its entry is gone from the table, yet its waiter is still attached
(count 1), its retrieval context is not cancelled, `destroy` never ran, and
its waiter's select is still blocked — and a subsequent miss for `[1]` then
creates a second, duplicate session (fresh identity 3 ≠ 0) for the same
address, so at most-one-live-session-per-address fails under capacity
pressure. -/
theorem claim10_eviction_skips_teardown :
    e5.cap = 2 ∧ e5.cache.length = 2 ∧
    cacheFind e5.cache (fetcherKey [1]) = none ∧
    (e5.heap[0]?).map
        (fun f => (f.addr, f.requestCnt, f.ctxCancelled, f.destroyCalls,
          f.deliveredClosed))
      = some ([1], 1, false, 0, false) ∧
    (e5.heap[0]?).map (fun f => fetchSelect f liveCtx true) = some none ∧
    e6.1.fetch = some 3 ∧ e6.1.fetch ≠ some 0 ∧
    (e6.2.heap[3]?).map Fetcher.addr = some [1] ∧
    (e6.2.heap[0]?).map Fetcher.addr = some [1] := by
  decide
